import Mathlib

/-!
Verification development for the quest-metadata scraper.

The definitions below are a shallow embedding of the Python sources under
`src/quest_metadata/`.  Python `float` values are modelled as exact
rationals (`ℚ`), `int` as `ℤ`, `str` as `String`, `datetime` as an integer
ordering value, `None`-able values as `Option`, and Python `dict`s keyed by
strings as association lists with unique keys.  Each definition names the
source function or model it embeds.
-/

namespace QuestMetadata

/-! ## helpers/math.py -/

/-- Embeds `helpers/math.py::percentile`.  `sorted(values)` is an ascending
stable sort; `index.is_integer()` holds exactly when the normalised rational
has denominator 1; `int(index)` and `int(index // 1)` agree with `Int.floor`
for the non-negative indices produced by `0 ≤ n ≤ 100`.  Out-of-range list
access is modelled with `getD` (Python would raise `IndexError`; the function
is only used on in-range indices). -/
def percentile (values : List ℚ) (n : ℤ) : ℚ :=
  let sort : List ℚ := values.insertionSort (· ≤ ·)
  let index : ℚ := ((n : ℚ) / 100) * ((sort.length : ℚ) - 1)
  if index.den = 1 then
    sort.getD index.num.toNat 0
  else
    let floor : ℤ := ⌊index⌋
    let ceiling : ℤ := floor + 1
    let fraction : ℚ := index - (floor : ℚ)
    sort.getD floor.toNat 0 +
      fraction * (sort.getD ceiling.toNat 0 - sort.getD floor.toNat 0)

/-- Written from the spec's words (§4.1, claim C7): sort ascending, take
`index = (p/100)·(n−1)`; if integral return that element, else linearly
interpolate between the floor and ceiling neighbours by the fractional
part. -/
def percentileSpec (values : List ℚ) (p : ℤ) : ℚ :=
  let sort : List ℚ := values.insertionSort (· ≤ ·)
  let index : ℚ := ((p : ℚ) / 100) * ((sort.length : ℚ) - 1)
  if index.den = 1 then
    sort.getD index.num.toNat 0
  else
    let lo : ℚ := sort.getD (⌊index⌋).toNat 0
    let hi : ℚ := sort.getD (⌈index⌉).toNat 0
    lo + (index - (⌊index⌋ : ℚ)) * (hi - lo)

/-! ## controller/parser.py : list merging -/

/-- Embeds `controller/parser.py::Parser._merge_list` (and the identical
`controller/meta_parser.py::MetaParser._merge_list`).  The Python code is
`base.extend(item for item in update if item not in base)`; CPython consumes
the generator one item at a time while appending to `base`, so each
membership test sees the items already appended.  That is exactly a left
fold. -/
def merge_list {α : Type} [DecidableEq α] (base update : List α) : List α :=
  update.foldl (fun acc item => if item ∈ acc then acc else acc ++ [item]) base

/-- Written from the spec's words (claim C6): the update elements that
survive the merge are those not already in the base, in update order, first
occurrence only. -/
def dedupFirst {α : Type} [DecidableEq α] : List α → List α
  | [] => []
  | x :: xs => x :: dedupFirst (xs.filter (· ≠ x))
termination_by l => l.length
decreasing_by
  simpa using Nat.lt_succ_of_le (List.length_filter_le _ xs)

/-! ## data/model/oculus : shared submodels -/

/-- Embeds `data/model/oculus/app.py::RatingHist` (identical to
`data/model/meta_app.py::RatingHist`): one histogram entry, a star value and
its vote count. -/
structure RatingHist where
  rating : ℤ
  votes : ℤ
  deriving DecidableEq, Repr

/-- Embeds `data/model/oculus/app_additionals.py::AppImage`.  The `props`
(resize configuration) and `data` (downloaded bytes) fields are external I/O
configuration and are not read by any verified operation; identity and
serialisation use `name`. -/
structure AppImage where
  name : String
  url : String
  type : String
  deriving DecidableEq, Repr

/-- Embeds `data/model/oculus/app_additionals.py::AppImages`, a dict keyed by
image role; modelled as an association list. -/
abbrev AppImages := List (String × Option AppImage)

/-- Embeds `AppImages.get_serialised_object`: each image serialises to its
name. -/
def AppImages.get_serialised_object (imgs : AppImages) :
    List (String × Option String) :=
  imgs.map (fun kv => (kv.1, kv.2.map AppImage.name))

/-- Embeds `data/model/oculus/app_changelog.py::AppChangeEntry`. -/
structure AppChangeEntry where
  version : String
  code : ℤ
  change_log : Option String
  deriving DecidableEq, Repr

/-- `AppChangeEntry.model_dump_json()`: the `code` field carries
`exclude=True`, so the serialised form of an entry is its `version` and
`change_log` only.  Two entry lists are serialised-equal exactly when these
projections agree. -/
def changelogSerialised (l : List AppChangeEntry) :
    List (String × Option String) :=
  l.map (fun e => (e.version, e.change_log))

/-- Embeds `data/model/oculus/app.py::_IarcRating`. -/
structure IarcRating where
  age_rating : Option String
  descriptors : List String
  elements : List String
  iarc_icon : Option AppImage
  deriving DecidableEq, Repr

/-- Embeds `data/model/oculus/app_additionals.py::Translation`. -/
structure Translation where
  images : AppImages
  locale : String
  display_name : String
  keywords : List String
  long_description : String
  long_description_uses_markdown : Bool
  short_description : String
  deriving DecidableEq, Repr

/-- Embeds `data/model/oculus/app_additionals.py::AppAdditionalDetails`. -/
structure AppAdditionalDetails where
  translations : List Translation
  images : AppImages
  keywords : List String
  deriving DecidableEq, Repr

/-! ## data/model/oculus/app.py : Item -/

/-- Embeds `data/model/oculus/app.py::Item` (exactly the fields the pydantic
model declares).  `release_date` is the display-date string, `price` the
optional offer amount.  The twelve `*_update` integers are the field-group
change-tracking timestamps, defaulting to 475000 as in the source. -/
structure Item where
  id : String
  app_name : String
  category_id : Option String
  category_name : Option String
  release_date : String
  description : String
  developer : String
  publisher : String
  genres : List String
  devices : List String
  modes : List String
  languages : List String
  platforms : List String
  player_modes : List String
  tags : List String
  hist : List RatingHist
  comfort : String
  iarc : IarcRating
  internet_connection : String
  website : String
  app_images : AppImages
  changelog : List AppChangeEntry
  price : Option ℤ
  is_demo_of : Option String
  on_rookie : Bool
  app_additionals : Option AppAdditionalDetails
  general_update : ℤ := 475000
  genre_update : ℤ := 475000
  device_update : ℤ := 475000
  mode_update : ℤ := 475000
  language_update : ℤ := 475000
  platform_update : ℤ := 475000
  player_mode_update : ℤ := 475000
  changelog_update : ℤ := 475000
  keyword_update : ℤ := 475000
  tag_update : ℤ := 475000
  rating_update : ℤ := 475000
  iarc_detail_update : ℤ := 475000
  deriving DecidableEq, Repr

/-- Embeds the computed property `Item.keywords` (`app.py` line 228): with
no `app_additionals` it returns a fresh empty list; otherwise it calls
`self.app_additionals.get_keywords()`, a method defined nowhere in the
source, so the property raises `AttributeError`. -/
def Item.keywords (i : Item) : Except String (List String) :=
  match i.app_additionals with
  | none => .ok []
  | some _ =>
    .error "AttributeError: AppAdditionalDetails object has no attribute get_keywords"

/-- Python string truthiness for an `a or b` chain over optional strings:
`None` and `""` fall through to the right operand. -/
def orStr (a : Option String) (b : String) : String :=
  match a with
  | none => b
  | some s => if s = "" then b else s

/-- Embeds the computed property `Item.category`:
`(category_id or category_name or "NOT_SPECIFIED").upper()`. -/
def Item.category (i : Item) : String :=
  (orStr i.category_id (orStr i.category_name "NOT_SPECIFIED")).toUpper

/-- Sum of the vote counts of a histogram, as in `Item.votes`. -/
def histVotes (hist : List RatingHist) : ℤ :=
  (hist.map (·.votes)).sum

/-- Python's `round(x, 6)` on an exact value: round to the nearest multiple
of 10⁻⁶, ties to the even neighbour (banker's rounding). -/
def roundHalfEven (q : ℚ) : ℤ :=
  let f : ℤ := ⌊q⌋
  if q - (f : ℚ) < 1 / 2 then f
  else if (1 : ℚ) / 2 < q - (f : ℚ) then f + 1
  else if Even f then f else f + 1

/-- `round(x, 6)` of `Item.rating`. -/
def round6 (q : ℚ) : ℚ :=
  ((roundHalfEven (q * 1000000) : ℚ)) / 1000000

/-- Vote-weighted mean star value of a histogram rounded to six decimal
places, `0` when there are no votes, as in `Item.rating`. -/
def histRating (hist : List RatingHist) : ℚ :=
  if histVotes hist = 0 then 0
  else round6 ((((hist.map (fun r => r.votes * r.rating)).sum : ℤ) : ℚ) /
    (histVotes hist : ℚ))

/-- Embeds the computed property `Item.votes`. -/
def Item.votes (i : Item) : ℤ := histVotes i.hist

/-- Embeds the computed property `Item.rating`. -/
def Item.rating (i : Item) : ℚ := histRating i.hist

/-- Embeds the computed property `Item.weighted_rating`.  The class-level
globals `Item.global_average_rating` and `Item.vote_confidence` (set once
per run by `Updater._calc_average_ratings`) are passed as the parameters
`m` and `c`. -/
def Item.weighted_rating (m c : ℚ) (i : Item) : ℚ :=
  let r : ℚ := i.rating / 5
  let v : ℚ := (i.votes : ℚ)
  ((⌊(m + r * v + m / 5 * c) / (m + 2 + v + c) * 5 * 10⌋ : ℤ) : ℚ) / 10

/-- Embeds `data/model/oculus/app.py::Error`. -/
structure Error where
  message : String
  severity : String
  mids : List String
  path : List (ℤ ⊕ String)
  deriving DecidableEq, Repr

/-- Embeds `data/model/oculus/app.py::OculusApp`: exactly the two fields the
pydantic model declares.  (Unlike the earlier `meta_app.py::MetaApp`
revision, no `package` field is declared.) -/
structure OculusApp where
  data : Item
  errors : List Error
  deriving DecidableEq, Repr

/-! ## controller/parser.py : Parser -/

namespace Parser

/-- Embeds `Parser._update_ratings` together with its helpers
`_update_single_rating` and `_merge_ratings`: for each update entry, every
base entry with the same star value has the update's votes added. -/
def update_ratings (base update : List RatingHist) : List RatingHist :=
  update.foldl
    (fun acc u => acc.map
      (fun b => if b.rating = u.rating then { b with votes := b.votes + u.votes } else b))
    base

/-- Embeds `Parser._consolidate_results` (parser.py lines 95-118).  Its
first statement, `base.additional_ids = base.additional_ids or []`, reads
the attribute `additional_ids`, which the pydantic `Item` model does not
declare, so pydantic raises `AttributeError` before any merge step runs;
the base record is not mutated. -/
def consolidate_results (base update : Item) : Except String Item :=
  Except.error "AttributeError: Item object has no attribute additional_ids"

/-- Embeds `Parser.parse` (parser.py lines 44-67): fold every additional
record into the primary's data (each iteration raises, see
`consolidate_results`), then `_handle_errors` (logging only), then
`primary.package = package` — an assignment to a field `OculusApp` does not
declare, which pydantic rejects with `ValueError`.  The function therefore
raises on every call and never returns the record. -/
def parse (primary : OculusApp) (additional : List OculusApp)
    (package : String) : Except String OculusApp := do
  let _ ← additional.foldlM (fun d m => consolidate_results d m.data)
    primary.data
  Except.error "ValueError: OculusApp object has no field package"

end Parser

/-- Sum of the votes that `Parser._update_ratings` directs at star value
`s`: the votes of every update entry whose star equals `s`. -/
def sumVotesAt (update : List RatingHist) (s : ℤ) : ℤ :=
  ((update.filter (fun u => u.rating = s)).map (·.votes)).sum

/-! ## data/model/meta_app.py and controller/meta_parser.py -/

/-- Embeds `data/model/meta_app.py::Item` restricted to the fields read by
`MetaParser._identify_base` and `_new_base_check`: the `release_date`
(a `datetime`, modelled as an integer ordering value) and the rating
histogram from which `votes` is derived; `id` and `name` carry record
identity.  The remaining descriptive fields of the source model are not
read by the base-selection logic. -/
structure MetaItem where
  id : String
  name : String
  release_date : ℤ
  hist : List RatingHist
  deriving DecidableEq, Repr

/-- Embeds the computed property `meta_app.Item.votes`. -/
def MetaItem.votes (i : MetaItem) : ℤ :=
  (i.hist.map (·.votes)).sum

/-- Embeds `data/model/meta_app.py::MetaApp` restricted likewise. -/
structure MetaApp where
  package : Option String
  data : MetaItem
  deriving DecidableEq, Repr

namespace MetaParser

/-- Embeds `MetaParser._new_base_check`: a candidate replaces the current
base when its release date is later, or equal with strictly more votes. -/
def new_base_check (base new : MetaItem) : Bool :=
  decide (new.release_date > base.release_date ∨
    (new.release_date = base.release_date ∧ new.votes > base.votes))

/-- Embeds `MetaParser._identify_base` on a non-empty response list
`first :: rest`: scan the enumerated tail keeping the index of the current
base, then split the chosen base from the remaining responses. -/
def identify_base (first : MetaApp) (rest : List MetaApp) :
    MetaApp × List MetaApp :=
  let responses : List MetaApp := first :: rest
  let best : ℕ × MetaApp :=
    (responses.enum.drop 1).foldl
      (fun acc p => if new_base_check acc.2.data p.2.data then p else acc)
      (0, first)
  (best.2, responses.eraseIdx best.1)

/-- The pairwise reduction the claim describes: start from the primary and
replace the running base whenever `_new_base_check` elects the candidate. -/
def reduce_base (first : MetaApp) (rest : List MetaApp) : MetaApp :=
  rest.foldl (fun b c => if new_base_check b.data c.data then c else b) first

end MetaParser

/-! ## data/model/local/apps.py and data/local/app_manager.py -/

/-- Embeds `data/model/rookie/releases.py::RookieRelease` (`last_updated` is
a `datetime`, modelled as an integer ordering value). -/
structure RookieRelease where
  release_name : String
  last_updated : ℤ
  size_mb : ℤ
  notes : Option String
  deriving DecidableEq, Repr

/-- Embeds `data/model/local/apps.py::LocalAppUpdate`. -/
structure LocalAppUpdate where
  app_name : String
  has_metadata : Bool := false
  is_available : Bool := false
  is_free : Bool := false
  is_demo_of : Bool := false
  deriving DecidableEq, Repr

/-- Embeds `data/model/local/apps.py::LocalApp` (which extends
`LocalAppUpdate`), the durable catalog entry. -/
structure LocalApp where
  app_name : String
  has_metadata : Bool := false
  is_available : Bool := false
  is_free : Bool := false
  is_demo_of : Bool := false
  id : Option String := none
  max_version : ℤ := 0
  max_version_date : ℤ := 0
  change_log : Option (List AppChangeEntry) := none
  rookie_releases : List RookieRelease := []
  deriving DecidableEq, Repr

/-- Embeds `data/model/local/apps.py::LocalApps`, the catalog dict keyed by
package name, modelled as an association list with unique keys. -/
abbrev LocalApps := List (String × LocalApp)

/-- Embeds `data/model/parsed/app_item.py::ParsedAppItem` as read by
`AppManager._update_app_details`: `max_version_date` and `max_version` are
the computed maxima over the fetched version list (`0` resp. `cl_version`
when there are no versions); they are carried as the values the catalog
update reads. -/
structure ParsedAppItem where
  id : Option String
  name : String
  packages : List String
  max_version_date : ℤ
  max_version : ℤ
  deriving DecidableEq, Repr

namespace AppManager

/-- Embeds `AppManager._update_app_details`: overwrite the stored version
identity when the stored entry has no id yet or the sighting's latest
version timestamp is at least the stored one; when the external id actually
changes, the stored changelog is invalidated. -/
def update_app_details (local_app : LocalApp) (parsed_item : ParsedAppItem) :
    LocalApp :=
  if local_app.id = none ∨ parsed_item.max_version_date ≥ local_app.max_version_date then
    let app : LocalApp := { local_app with
      max_version_date := parsed_item.max_version_date
      max_version := parsed_item.max_version }
    if local_app.id ≠ parsed_item.id then
      { app with change_log := none, id := parsed_item.id }
    else app
  else local_app

/-- Embeds `AppManager.update`: when the package is catalogued, set its
availability flags and — when the supplied name is non-empty — its display
name; otherwise the catalog is untouched. -/
def update (apps : LocalApps) (package_name : String) (upd : LocalAppUpdate) :
    LocalApps :=
  apps.map (fun kv =>
    if kv.1 = package_name then
      (kv.1, { kv.2 with
        is_free := upd.is_free
        is_available := upd.is_available
        is_demo_of := upd.is_demo_of
        has_metadata := upd.has_metadata
        app_name := if upd.app_name ≠ "" then upd.app_name else kv.2.app_name })
    else kv)

/-- Embeds `AppManager._load_from_file`: reading and validating the catalog
file is I/O whose outcome is passed in as an `Except` value; a missing file
(`FileNotFoundError`) or a failed validation (`ValidationError`) is caught
and an empty catalog returned. -/
def load_from_file (loaded : Except String LocalApps) : LocalApps :=
  match loaded with
  | .ok apps => apps
  | .error _ => []

end AppManager

/-! ## controller/updater.py : global rating statistics -/

namespace Updater

/-- Embeds `Updater._calc_average_ratings`: over all successfully scraped
apps, the vote-weighted mean rating and the median rating are computed and
the lower of the two becomes `Item.global_average_rating`, while the 25th
percentile of the vote counts becomes `Item.vote_confidence`.  The pair
`(global_average_rating, vote_confidence)` is returned instead of being
stored in class-level mutable state. -/
def calc_average_ratings (items : List Item) : ℚ × ℚ :=
  let votes : List ℤ := items.map Item.votes
  let ratings : List ℚ := items.map Item.rating
  let mean : ℚ :=
    ((votes.zip ratings).map (fun ab => (ab.1 : ℚ) * ab.2)).sum /
      ((votes.sum : ℤ) : ℚ)
  let median : ℚ := percentile ratings 50
  (min median mean, percentile (votes.map (fun v => (v : ℚ))) 25)

end Updater

/-- A concrete `Item` whose non-histogram content is empty, used to evaluate
the rating pipeline on explicit inputs. -/
def sampleItem (hist : List RatingHist) : Item :=
  { id := "", app_name := "", category_id := none, category_name := none,
    release_date := "", description := "", developer := "", publisher := "",
    genres := [], devices := [], modes := [], languages := [],
    platforms := [], player_modes := [], tags := [], hist := hist,
    comfort := "", iarc := ⟨none, [], [], none⟩, internet_connection := "",
    website := "", app_images := [], changelog := [], price := none,
    is_demo_of := none, on_rookie := false, app_additionals := none }

/-! ## data/model/local/processed_app.py and Item.set_update_details -/

/-- Embeds `data/model/local/processed_app.py::ProcessedApp`, the previous
run's persisted value — exactly the fields the pydantic model declares
(`iarc` and `changelog` are commented out there, and no `rating_update`,
`iarc_detail_update` or `changelog_update` is declared).  Every declared
`*_update` timestamp defaults to 0, the value a previous JSON lacking the
key validates to. -/
structure ProcessedApp where
  id : String
  app_name : String
  release_date : String
  description : String
  developer : String
  publisher : String
  genres : List String
  devices : List String
  modes : List String
  languages : List String
  platforms : List String
  player_modes : List String
  tags : List String
  comfort : String
  internet_connection : String
  website : String
  app_images : List (String × Option String)
  keywords : List String
  on_rookie : Bool
  category : String
  votes : ℤ
  rating : ℚ
  weighted_rating : ℚ
  last_update : ℤ := 0
  general_update : ℤ := 0
  device_update : ℤ := 0
  genre_update : ℤ := 0
  keyword_update : ℤ := 0
  language_update : ℤ := 0
  mode_update : ℤ := 0
  platform_update : ℤ := 0
  player_mode_update : ℤ := 0
  tag_update : ℤ := 0
  deriving DecidableEq, Repr

/-- Embeds `Item._prev_list_update`: keep the previous date when the two
lists are equal as sets (`set(list_1) == set(list_2)`), else `None`. -/
def prev_list_update (list_1 list_2 : List String) (prev_date : ℤ) :
    Option ℤ :=
  if list_1.toFinset = list_2.toFinset then some prev_date else none

/-- Embeds `Item._get_general_update`: the general group compares name,
release date, description, developer, publisher, comfort, connectivity,
website, rookie flag, category, weighted rating and the serialised image
set.  `m`/`c` are the weighted-rating globals (see
`Updater.calc_average_ratings`). -/
def Item.get_general_update (i : Item) (m c : ℚ) (new_date : ℤ)
    (prev : ProcessedApp) : ℤ :=
  if i.app_name ≠ prev.app_name ∨
      i.release_date ≠ prev.release_date ∨
      i.description ≠ prev.description ∨
      i.developer ≠ prev.developer ∨
      i.publisher ≠ prev.publisher ∨
      i.comfort ≠ prev.comfort ∨
      i.internet_connection ≠ prev.internet_connection ∨
      i.website ≠ prev.website ∨
      i.on_rookie ≠ prev.on_rookie ∨
      i.category ≠ prev.category ∨
      i.weighted_rating m c ≠ prev.weighted_rating ∨
      i.app_images.get_serialised_object ≠ prev.app_images then
    new_date
  else prev.general_update

/-- Embeds `Item._get_rating_update` (app.py lines 318-326): when votes or
rating differ it returns the new date; when both are unchanged it returns
`prev_app.rating_update` — an attribute `ProcessedApp` does not declare, so
pydantic raises `AttributeError`. -/
def Item.get_rating_update (i : Item) (new_date : ℤ)
    (prev : ProcessedApp) : Except String ℤ :=
  if i.votes ≠ prev.votes ∨ i.rating ≠ prev.rating then .ok new_date
  else .error "AttributeError: ProcessedApp object has no attribute rating_update"

/-- Embeds `Item._get_iarc_detail_update` (app.py lines 328-339): its
condition reads `prev_app.iarc`, an attribute `ProcessedApp` does not
declare (the field is commented out), so pydantic raises `AttributeError`
unconditionally. -/
def Item.get_iarc_detail_update (i : Item) (new_date : ℤ)
    (prev : ProcessedApp) : Except String ℤ :=
  .error "AttributeError: ProcessedApp object has no attribute iarc"

/-- Embeds `Item._get_changelog_update` (app.py lines 341-351): after
serialising its own changelog it reads `prev_app.changelog`, an attribute
`ProcessedApp` does not declare (commented out), so pydantic raises
`AttributeError` unconditionally. -/
def Item.get_changelog_update (i : Item) (new_date : ℤ)
    (prev : ProcessedApp) : Except String ℤ :=
  .error "AttributeError: ProcessedApp object has no attribute changelog"

/-- Embeds `Item.set_update_details` (app.py lines 264-293).  With no
previous value every group's timestamp becomes `new_date` and the method
returns normally.  With a previous value the assignments run in source
order: `general_update` is assigned (its comparison reads only declared
fields), then `_get_rating_update` either yields `new_date` (value changed)
or raises, then `_get_iarc_detail_update` raises unconditionally, so
`_get_changelog_update` and `_check_details_update` are never reached and
no classification-list or changelog timestamp is ever touched.  Mutation
plus exception is modelled as the pair of the item state at the raise and
the pending exception. -/
def Item.set_update_details (i : Item) (m c : ℚ) (new_date : ℤ)
    (prev_app : Option ProcessedApp) : Item × Option String :=
  match prev_app with
  | none =>
    ({ i with
      general_update := new_date
      genre_update := new_date
      device_update := new_date
      mode_update := new_date
      language_update := new_date
      platform_update := new_date
      player_mode_update := new_date
      keyword_update := new_date
      tag_update := new_date
      rating_update := new_date
      iarc_detail_update := new_date
      changelog_update := new_date }, none)
  | some prev =>
    let i1 : Item :=
      { i with general_update := i.get_general_update m c new_date prev }
    match i1.get_rating_update new_date prev with
    | .error e => (i1, some e)
    | .ok r =>
      let i2 : Item := { i1 with rating_update := r }
      match i2.get_iarc_detail_update new_date prev with
      | .error e => (i2, some e)
      | .ok v =>
        -- never reached: `get_iarc_detail_update` raises unconditionally;
        -- the source would continue with `_get_changelog_update` and
        -- `_check_details_update` here
        ({ i2 with iarc_detail_update := v }, none)

/-- A concrete `ProcessedApp` with empty content, used to evaluate the
change-tracking logic on explicit inputs. -/
def sampleProcessed : ProcessedApp :=
  { id := "", app_name := "", release_date := "", description := "",
    developer := "", publisher := "", genres := [], devices := [],
    modes := [], languages := [], platforms := [], player_modes := [],
    tags := [], comfort := "", internet_connection := "", website := "",
    app_images := [], keywords := [], on_rookie := false, category := "",
    votes := 0, rating := 0, weighted_rating := 0 }

/-! ## Helper lemmas -/

/-- A rational that is not an integer has its ceiling one above its floor. -/
lemma ceil_of_den_ne_one (q : ℚ) (h : q.den ≠ 1) : ⌈q⌉ = ⌊q⌋ + 1 := by
  have hne : ((⌊q⌋ : ℚ)) ≠ q := by
    intro he
    exact h (by rw [← he]; exact Rat.den_intCast ⌊q⌋)
  have h1 : (⌊q⌋ : ℚ) < q := lt_of_le_of_ne (Int.floor_le q) hne
  have h2 : ⌊q⌋ < ⌈q⌉ := Int.lt_ceil.mpr h1
  have h3 : ⌈q⌉ ≤ ⌊q⌋ + 1 := Int.ceil_le.mpr (by exact_mod_cast (Int.lt_floor_add_one q).le)
  omega

/-- Unfolding `merge_list` one update element at a time. -/
lemma merge_list_cons {α : Type} [DecidableEq α] (base : List α) (u : α)
    (rest : List α) :
    merge_list base (u :: rest) =
      if u ∈ base then merge_list base rest else merge_list (base ++ [u]) rest := by
  by_cases hu : u ∈ base <;> simp [merge_list, hu]

/-- The merge of `controller/parser.py::Parser._merge_list` appends, after the
base, exactly the first occurrences of the update elements that are not
already in the base. -/
lemma merge_list_eq_append {α : Type} [DecidableEq α] (update base : List α) :
    merge_list base update = base ++ dedupFirst (update.filter (· ∉ base)) := by
  induction update generalizing base with
  | nil => simp [merge_list, dedupFirst]
  | cons u rest ih =>
    rw [merge_list_cons]
    by_cases hu : u ∈ base
    · rw [if_pos hu, ih]
      simp [hu]
    · rw [if_neg hu, ih]
      have hfilter : rest.filter (· ∉ base ++ [u]) =
          (rest.filter (· ∉ base)).filter (· ≠ u) := by
        rw [List.filter_filter]
        apply List.filter_congr
        intro x _
        simp [List.mem_append, not_or, and_comm]
      simp only [List.filter_cons, decide_eq_true_eq]
      rw [if_pos hu]
      show (base ++ [u]) ++ dedupFirst (rest.filter (· ∉ (base ++ [u]))) =
        base ++ dedupFirst (u :: rest.filter (· ∉ base))
      rw [hfilter, dedupFirst, List.append_assoc]
      rfl

/-- Every element of `dedupFirst l` comes from `l`. -/
lemma dedupFirst_subset {α : Type} [DecidableEq α] (l : List α) :
    ∀ y ∈ dedupFirst l, y ∈ l := by
  induction l using dedupFirst.induct with
  | case1 => simp [dedupFirst]
  | case2 x xs ih =>
    intro y hy
    rw [dedupFirst] at hy
    rcases List.mem_cons.mp hy with h | h
    · simp [h]
    · exact List.mem_cons_of_mem _ (List.mem_of_mem_filter (ih y h))

/-- `dedupFirst` never lists an element twice. -/
lemma dedupFirst_nodup {α : Type} [DecidableEq α] (l : List α) :
    (dedupFirst l).Nodup := by
  induction l using dedupFirst.induct with
  | case1 => simp [dedupFirst]
  | case2 x xs ih =>
    rw [dedupFirst]
    refine List.nodup_cons.mpr ⟨fun hx => ?_, ih⟩
    have := dedupFirst_subset _ _ hx
    simp at this

/-- `Parser._update_ratings` with an empty update list is the identity. -/
lemma update_ratings_nil (base : List RatingHist) :
    Parser.update_ratings base [] = base := rfl

/-- Unfolding `Parser._update_ratings` one update entry at a time. -/
lemma update_ratings_cons (base : List RatingHist) (u : RatingHist)
    (rest : List RatingHist) :
    Parser.update_ratings base (u :: rest) =
      Parser.update_ratings
        (base.map (fun b =>
          if b.rating = u.rating then { b with votes := b.votes + u.votes } else b))
        rest := rfl

/-- The ratings merge adds, to each base entry, the votes of every update
entry with the same star value. -/
lemma update_ratings_eq_map (update : List RatingHist) :
    ∀ base, Parser.update_ratings base update =
      base.map (fun b => { b with votes := b.votes + sumVotesAt update b.rating }) := by
  induction update with
  | nil =>
    intro base
    rw [update_ratings_nil]
    have h : ∀ b ∈ base,
        ({ b with votes := b.votes + sumVotesAt [] b.rating } : RatingHist) = b := by
      intro b _
      simp [sumVotesAt]
    rw [List.map_congr_left h]
    simp
  | cons u rest ih =>
    intro base
    rw [update_ratings_cons, ih, List.map_map]
    apply List.map_congr_left
    intro b _
    by_cases h : b.rating = u.rating
    · simp [Function.comp, h, sumVotesAt, List.filter_cons, add_assoc]
    · simp [Function.comp, h, sumVotesAt, List.filter_cons, Ne.symm h]

/-- Projecting the index-tracking fold of `_identify_base` onto its record
component gives the plain pairwise reduction. -/
lemma foldl_enum_snd (l : List (ℕ × MetaApp)) :
    ∀ acc : ℕ × MetaApp,
      (l.foldl (fun acc p =>
        if MetaParser.new_base_check acc.2.data p.2.data then p else acc) acc).2 =
      (l.map Prod.snd).foldl (fun b c =>
        if MetaParser.new_base_check b.data c.data then c else b) acc.2 := by
  induction l with
  | nil => intro acc; rfl
  | cons hd tl ih =>
    intro acc
    simp only [List.foldl_cons, List.map_cons]
    rw [ih]
    congr 1
    by_cases h : MetaParser.new_base_check acc.2.data hd.2.data <;> simp [h]

/-- The base record selected by `_identify_base` is the pairwise reduction
of the responses starting from the primary. -/
lemma identify_base_fst (first : MetaApp) (rest : List MetaApp) :
    (MetaParser.identify_base first rest).1 = MetaParser.reduce_base first rest := by
  show (((first :: rest).enum.drop 1).foldl _ (0, first)).2 = _
  rw [foldl_enum_snd]
  have h : ((first :: rest).enum.drop 1).map Prod.snd = rest := by
    simp [List.enum_cons]
  rw [h]
  rfl

/-- With a previous app, `set_update_details` always stops at a raise: at
the `rating_update` read when votes and rating are unchanged, otherwise at
the unconditional `iarc` read.  The state at the raise carries the updated
`general_update` (and `rating_update` in the second case) and nothing
else. -/
lemma set_update_details_some (i : Item) (m c : ℚ) (new_date : ℤ)
    (p : ProcessedApp) :
    Item.set_update_details i m c new_date (some p) =
      if i.votes ≠ p.votes ∨ i.rating ≠ p.rating then
        ({ i with
            general_update := i.get_general_update m c new_date p
            rating_update := new_date },
          some "AttributeError: ProcessedApp object has no attribute iarc")
      else
        ({ i with general_update := i.get_general_update m c new_date p },
          some "AttributeError: ProcessedApp object has no attribute rating_update") := by
  by_cases hr : i.votes ≠ p.votes ∨ i.rating ≠ p.rating <;>
    simp only [Item.votes, Item.rating] at hr <;>
    simp [Item.set_update_details, Item.get_rating_update,
      Item.get_iarc_detail_update, Item.votes, Item.rating, hr]

/-! ## Claim theorems -/

/-- C1: the base record is the pairwise reduction starting from the primary,
replacing the running base exactly when the candidate's release date is
strictly later or equal with strictly more votes; for A(2020, 10 votes),
B(2021, 1 vote), C(2021, 5 votes), consolidating `[A,B,C]` selects C. -/
theorem identify_base_pairwise (first : MetaApp) (rest : List MetaApp)
    (base new : MetaItem) :
    (MetaParser.identify_base first rest).1 = MetaParser.reduce_base first rest ∧
    (MetaParser.new_base_check base new = true ↔
      (new.release_date > base.release_date ∨
        (new.release_date = base.release_date ∧ new.votes > base.votes))) ∧
    (MetaParser.identify_base
        ⟨none, ⟨"A", "A", 2020, [⟨5, 10⟩]⟩⟩
        [⟨none, ⟨"B", "B", 2021, [⟨5, 1⟩]⟩⟩,
         ⟨none, ⟨"C", "C", 2021, [⟨5, 5⟩]⟩⟩]).1 =
      ⟨none, ⟨"C", "C", 2021, [⟨5, 5⟩]⟩⟩ := by
  refine ⟨identify_base_fst first rest, ?_, by decide⟩
  simp [MetaParser.new_base_check]

/-- C7: `percentile` sorts ascending, takes `index = (p/100)·(n−1)`, returns
the element there when the index is integral and otherwise linearly
interpolates between the floor and ceiling neighbours by the fractional
part; in particular `percentile([1,2,3,4,5],50) = 3` and
`percentile([1,2,3,4],50) = 2.5`. -/
theorem percentile_correct (values : List ℚ) (p : ℤ)
    (hne : values ≠ []) (h0 : 0 ≤ p) (h100 : p ≤ 100) :
    percentile values p = percentileSpec values p ∧
    percentile [1, 2, 3, 4, 5] 50 = 3 ∧
    percentile [1, 2, 3, 4] 50 = 5 / 2 := by
  refine ⟨?_, ?_, ?_⟩
  · by_cases hden :
      (((p : ℚ) / 100) * (((values.insertionSort (· ≤ ·)).length : ℚ) - 1)).den = 1
    · simp only [percentile, percentileSpec, if_pos hden]
    · simp only [percentile, percentileSpec, if_neg hden,
        ceil_of_den_ne_one _ hden]
  · norm_num [percentile, List.insertionSort, List.orderedInsert,
      show Int.toNat 2 = 2 from rfl]
  · norm_num [percentile, List.insertionSort, List.orderedInsert,
      show Int.toNat 1 = 1 from rfl, show Int.toNat 2 = 2 from rfl]

/-- Witness for C7 at the concrete input `[1,2,3,4,5]`, `p = 50`. -/
theorem percentile_correct_witness :
    ([1, 2, 3, 4, 5] : List ℚ) ≠ [] ∧ (0 : ℤ) ≤ 50 ∧ (50 : ℤ) ≤ 100 ∧
    percentile [1, 2, 3, 4, 5] 50 = percentileSpec [1, 2, 3, 4, 5] 50 :=
  ⟨by simp, by norm_num, by norm_num,
    (percentile_correct [1, 2, 3, 4, 5] 50 (by simp) (by norm_num)
      (by norm_num)).1⟩

/-- C3: merging an update histogram into a base histogram adds each update
entry's votes to the base entry with the same star value and drops update
entries whose star is absent from the base; `[(5,10),(4,2)]` merged with
`[(5,3),(4,1)]` gives `[(5,13),(4,3)]`, with derived votes 16 and derived
rating 4.8125. -/
theorem update_ratings_by_star (base update : List RatingHist) :
    Parser.update_ratings base update =
      base.map (fun b => { b with votes := b.votes + sumVotesAt update b.rating }) ∧
    Parser.update_ratings [⟨5, 10⟩, ⟨4, 2⟩] [⟨5, 3⟩, ⟨4, 1⟩] =
      [⟨5, 13⟩, ⟨4, 3⟩] ∧
    histVotes [⟨5, 13⟩, ⟨4, 3⟩] = 16 ∧
    histRating [⟨5, 13⟩, ⟨4, 3⟩] = 48125 / 10000 := by
  refine ⟨update_ratings_eq_map update base, by decide, by decide, ?_⟩
  norm_num [histRating, histVotes, round6, roundHalfEven]

/-- C8: `Parser.parse` never returns the record.  With an empty additional
list the merge loop is skipped — so the primary's data is indeed never
mutated — but the closing `primary.package = package` assigns a field
`OculusApp` does not declare and pydantic raises `ValueError`; with a
non-empty additional list the first merge iteration already raises
`AttributeError` reading the undeclared `additional_ids`. -/
theorem parse_raises (r : OculusApp) (pkg : String) :
    Parser.parse r [] pkg =
      Except.error "ValueError: OculusApp object has no field package" ∧
    ([] : List OculusApp).foldlM
      (fun d m => Parser.consolidate_results d m.data) r.data =
      Except.ok r.data ∧
    (∀ (a : OculusApp) (rest : List OculusApp),
      Parser.parse r (a :: rest) pkg =
        Except.error "AttributeError: Item object has no attribute additional_ids") := by
  exact ⟨rfl, rfl, fun a rest => rfl⟩

/-- C6: merging a base classification list with an update list keeps the base
elements in order and appends the update elements not already present, in
update order, never appending an update element twice; in particular
`["Action","Puzzle"]` merged with `["Puzzle","Racing"]` gives
`["Action","Puzzle","Racing"]`. -/
theorem merge_list_union (base update : List String) :
    merge_list base update = base ++ dedupFirst (update.filter (· ∉ base)) ∧
    (dedupFirst (update.filter (· ∉ base))).Nodup ∧
    (∀ y ∈ dedupFirst (update.filter (· ∉ base)), y ∈ update ∧ y ∉ base) ∧
    merge_list ["Action", "Puzzle"] ["Puzzle", "Racing"] =
      ["Action", "Puzzle", "Racing"] := by
  refine ⟨merge_list_eq_append update base, dedupFirst_nodup _, ?_, by decide⟩
  intro y hy
  have := dedupFirst_subset _ y hy
  simp only [List.mem_filter, decide_eq_true_eq] at this
  exact this

/-- Witness for C6 at the concrete input
`["Action","Puzzle"]` / `["Puzzle","Racing"]`. -/
theorem merge_list_union_witness :
    merge_list ["Action", "Puzzle"] ["Puzzle", "Racing"] =
      ["Action", "Puzzle"] ++
        dedupFirst (["Puzzle", "Racing"].filter (· ∉ ["Action", "Puzzle"])) ∧
    "Racing" ∈ ["Puzzle", "Racing"] ∧ "Racing" ∉ ["Action", "Puzzle"] :=
  ⟨(merge_list_union ["Action", "Puzzle"] ["Puzzle", "Racing"]).1,
    (merge_list_union ["Action", "Puzzle"] ["Puzzle", "Racing"]).2.2.1
      "Racing" (by simp [dedupFirst])⟩

/-- C4: the claimed change-tracking comparison never runs against a
previous value.  With no previous value every group's timestamp is set to
the new run's time and the method returns normally — that half of the
claim holds.  With a previous value the method always raises
`AttributeError` (`ProcessedApp` declares no `rating_update` and no
`iarc`), so no timestamp is ever carried forward and the classification
list, changelog and iarc timestamps are never assigned; in particular, on
the unchanged-input second run (empty item against the matching previous
value, run time 475001), execution stops at the `rating_update` read. -/
theorem set_update_details_raises (i : Item) (m c : ℚ) (new_date : ℤ)
    (p : ProcessedApp) :
    Item.set_update_details i m c new_date none =
      ({ i with
        general_update := new_date
        genre_update := new_date
        device_update := new_date
        mode_update := new_date
        language_update := new_date
        platform_update := new_date
        player_mode_update := new_date
        keyword_update := new_date
        tag_update := new_date
        rating_update := new_date
        iarc_detail_update := new_date
        changelog_update := new_date }, none) ∧
    (Item.set_update_details i m c new_date (some p)).2 ≠ none ∧
    ((Item.set_update_details i m c new_date (some p)).2 =
        some "AttributeError: ProcessedApp object has no attribute rating_update" ∨
      (Item.set_update_details i m c new_date (some p)).2 =
        some "AttributeError: ProcessedApp object has no attribute iarc") ∧
    (Item.set_update_details i m c new_date (some p)).1.genre_update =
      i.genre_update ∧
    (Item.set_update_details i m c new_date (some p)).1.device_update =
      i.device_update ∧
    (Item.set_update_details i m c new_date (some p)).1.mode_update =
      i.mode_update ∧
    (Item.set_update_details i m c new_date (some p)).1.language_update =
      i.language_update ∧
    (Item.set_update_details i m c new_date (some p)).1.platform_update =
      i.platform_update ∧
    (Item.set_update_details i m c new_date (some p)).1.player_mode_update =
      i.player_mode_update ∧
    (Item.set_update_details i m c new_date (some p)).1.keyword_update =
      i.keyword_update ∧
    (Item.set_update_details i m c new_date (some p)).1.tag_update =
      i.tag_update ∧
    (Item.set_update_details i m c new_date (some p)).1.changelog_update =
      i.changelog_update ∧
    (Item.set_update_details i m c new_date (some p)).1.iarc_detail_update =
      i.iarc_detail_update ∧
    (Item.set_update_details (sampleItem []) 0 0 475001
        (some sampleProcessed)).2 =
      some "AttributeError: ProcessedApp object has no attribute rating_update" := by
  rw [set_update_details_some i m c new_date p,
    set_update_details_some (sampleItem []) 0 0 475001 sampleProcessed]
  have hc : ¬((sampleItem []).votes ≠ sampleProcessed.votes ∨
      (sampleItem []).rating ≠ sampleProcessed.rating) := by
    simp [sampleItem, sampleProcessed, Item.votes, Item.rating, histVotes,
      histRating]
  rw [if_neg hc]
  by_cases hr : i.votes ≠ p.votes ∨ i.rating ≠ p.rating
  · rw [if_pos hr]
    exact ⟨rfl, by simp, Or.inr rfl, rfl, rfl, rfl, rfl, rfl, rfl, rfl, rfl,
      rfl, rfl, rfl⟩
  · rw [if_neg hr]
    exact ⟨rfl, by simp, Or.inl rfl, rfl, rfl, rfl, rfl, rfl, rfl, rfl, rfl,
      rfl, rfl, rfl⟩

/-- C5: the weighted rating is the Bayesian-shrunk score
`floor((m + (rating/5)·votes + (m/5)·c) / (m + 2 + votes + c) · 5 · 10) / 10`
where `m` is the lower of the cross-app vote-weighted mean rating and the
cross-app median rating, and `c` is the 25th percentile of the cross-app
vote counts; evaluated on two concrete apps with histograms `[(5,4)]` and
`[(3,4)]` the globals are `(4, 4)` and the first app's weighted rating
is 4. -/
theorem weighted_rating_formula (items : List Item) (i : Item) (m c : ℚ) :
    i.weighted_rating m c =
      ((⌊(m + i.rating / 5 * (i.votes : ℚ) + m / 5 * c) /
          (m + 2 + (i.votes : ℚ) + c) * 5 * 10⌋ : ℤ) : ℚ) / 10 ∧
    (Updater.calc_average_ratings items).1 =
      min (percentile (items.map Item.rating) 50)
        (((((items.map Item.votes).zip (items.map Item.rating)).map
          (fun ab => (ab.1 : ℚ) * ab.2)).sum) /
          (((items.map Item.votes).sum : ℤ) : ℚ)) ∧
    (Updater.calc_average_ratings items).2 =
      percentile ((items.map Item.votes).map (fun v => (v : ℚ))) 25 ∧
    Updater.calc_average_ratings [sampleItem [⟨5, 4⟩], sampleItem [⟨3, 4⟩]] =
      (4, 4) ∧
    (sampleItem [⟨5, 4⟩]).weighted_rating 4 4 = 4 := by
  refine ⟨rfl, rfl, rfl, ?_, ?_⟩
  · norm_num [Updater.calc_average_ratings, percentile, List.insertionSort,
      List.orderedInsert, Item.votes, Item.rating, histVotes, histRating,
      round6, roundHalfEven, sampleItem, Prod.ext_iff,
      show Int.toNat 0 = 0 from rfl, show Int.toNat 1 = 1 from rfl]
  · norm_num [Item.weighted_rating, Item.votes, Item.rating, histVotes,
      histRating, round6, roundHalfEven, sampleItem]

/-- C2 counterexample: the claim says the stored identity is overwritten
exactly when the sighting's timestamp is strictly greater (or no id is
stored); but for a sighting with timestamp equal to the stored one
(5 = 5, stored id present) the code overwrites the version fields, the id
and clears the changelog, because `_update_app_details` compares with
`>=`. -/
theorem update_app_details_cex :
    ¬ ((5 : ℤ) > (5 : ℤ) ∨ (some "A" : Option String) = none) ∧
    AppManager.update_app_details
        ⟨"App", false, false, false, false, some "A", 1, 5,
          some [⟨"v1", 1, some "log"⟩], []⟩
        ⟨some "B", "App", [], 5, 2⟩ =
      ⟨"App", false, false, false, false, some "B", 2, 5, none, []⟩ ∧
    (⟨"App", false, false, false, false, some "B", 2, 5, none, []⟩ : LocalApp) ≠
      ⟨"App", false, false, false, false, some "A", 1, 5,
        some [⟨"v1", 1, some "log"⟩], []⟩ := by
  refine ⟨by decide, by decide, by decide⟩

/-- C2 (amended): the stored `primaryId`, `maxVersionTimestamp` and
`maxVersionCode` are overwritten exactly when the sighting's timestamp is
greater than **or equal to** the stored one or no id is stored yet; the
changelog is cleared exactly when that overwrite changes the external id;
a strictly older sighting (with an id present) changes nothing. -/
theorem update_app_details_rule (app : LocalApp) (p : ParsedAppItem) :
    ((app.id = none ∨ p.max_version_date ≥ app.max_version_date) →
      (AppManager.update_app_details app p).max_version_date = p.max_version_date ∧
      (AppManager.update_app_details app p).max_version = p.max_version ∧
      (AppManager.update_app_details app p).id = p.id ∧
      (app.id ≠ p.id → (AppManager.update_app_details app p).change_log = none) ∧
      (app.id = p.id → (AppManager.update_app_details app p).change_log = app.change_log)) ∧
    (¬ (app.id = none ∨ p.max_version_date ≥ app.max_version_date) →
      AppManager.update_app_details app p = app) ∧
    (AppManager.update_app_details app p).app_name = app.app_name ∧
    (AppManager.update_app_details app p).rookie_releases = app.rookie_releases := by
  simp only [AppManager.update_app_details]
  split_ifs with hcond hid
  · exact ⟨fun _ => ⟨rfl, rfl, rfl, fun _ => rfl, fun h => absurd h hid⟩,
      fun hneg => absurd hcond hneg, rfl, rfl⟩
  · have heq : app.id = p.id := not_ne_iff.mp hid
    exact ⟨fun _ => ⟨rfl, rfl, heq, fun h => absurd heq h, fun _ => rfl⟩,
      fun hneg => absurd hcond hneg, rfl, rfl⟩
  · exact ⟨fun h => absurd h hcond, fun _ => rfl, rfl, rfl⟩

/-- Witness for C2 at concrete inputs: a newer sighting (timestamp 7 > 5)
with a different id overwrites and clears the changelog; an older sighting
(timestamp 3 < 5) leaves the entry untouched. -/
theorem update_app_details_rule_witness :
    ((some "A" : Option String) = none ∨ (7 : ℤ) ≥ 5) ∧
    (AppManager.update_app_details
        ⟨"App", false, false, false, false, some "A", 1, 5,
          some [⟨"v1", 1, some "log"⟩], []⟩
        ⟨some "B", "App", [], 7, 2⟩).change_log = none ∧
    ¬ ((some "A" : Option String) = none ∨ (3 : ℤ) ≥ 5) ∧
    AppManager.update_app_details
        ⟨"App", false, false, false, false, some "A", 1, 5,
          some [⟨"v1", 1, some "log"⟩], []⟩
        ⟨some "B", "App", [], 3, 2⟩ =
      ⟨"App", false, false, false, false, some "A", 1, 5,
        some [⟨"v1", 1, some "log"⟩], []⟩ := by
  refine ⟨Or.inr (by norm_num), ?_, by decide, ?_⟩
  · exact ((update_app_details_rule _ _).1 (Or.inr (by norm_num))).2.2.2.1
      (by decide)
  · exact (update_app_details_rule
        ⟨"App", false, false, false, false, some "A", 1, 5,
          some [⟨"v1", 1, some "log"⟩], []⟩
        ⟨some "B", "App", [], 3, 2⟩).2.1 (by decide)

/-- C9: constructing the catalog store from a missing or invalid persisted
file yields the empty catalog (no exception escapes: both
`FileNotFoundError` and `ValidationError` are caught); a file that parses
yields the stored keyed collection unchanged. -/
theorem load_from_file_recovers (e : String) (apps : LocalApps) :
    AppManager.load_from_file (Except.error e) = [] ∧
    AppManager.load_from_file (Except.ok apps) = apps :=
  ⟨rfl, rfl⟩

/-- C10: `update` leaves the catalog unchanged when the package is absent;
when present it rewrites only that entry's flags and (for a non-empty
supplied name) its display name, keeping the entry's id, version fields,
changelog and rookie releases, and every other entry, unchanged. -/
theorem manager_update_frame (apps : LocalApps) (pkg : String)
    (upd : LocalAppUpdate) :
    ((∀ kv ∈ apps, kv.1 ≠ pkg) → AppManager.update apps pkg upd = apps) ∧
    (AppManager.update apps pkg upd).map Prod.fst = apps.map Prod.fst ∧
    (∀ kv ∈ apps, kv.1 ≠ pkg → kv ∈ AppManager.update apps pkg upd) ∧
    (∀ kv ∈ apps, kv.1 = pkg →
      (kv.1, (⟨if upd.app_name ≠ "" then upd.app_name else kv.2.app_name,
        upd.has_metadata, upd.is_available, upd.is_free, upd.is_demo_of,
        kv.2.id, kv.2.max_version, kv.2.max_version_date, kv.2.change_log,
        kv.2.rookie_releases⟩ : LocalApp)) ∈ AppManager.update apps pkg upd) := by
  refine ⟨?_, ?_, ?_, ?_⟩
  · intro h
    have hcong : ∀ kv ∈ apps,
        (if kv.1 = pkg then
          (kv.1, { kv.2 with
            is_free := upd.is_free
            is_available := upd.is_available
            is_demo_of := upd.is_demo_of
            has_metadata := upd.has_metadata
            app_name := if upd.app_name ≠ "" then upd.app_name else kv.2.app_name })
        else kv) = kv := by
      intro kv hkv
      rw [if_neg (h kv hkv)]
    rw [AppManager.update, List.map_congr_left hcong]
    simp
  · rw [AppManager.update, List.map_map]
    apply List.map_congr_left
    intro kv _
    by_cases h : kv.1 = pkg <;> simp [h]
  · intro kv hkv hne
    have : (if kv.1 = pkg then
        (kv.1, { kv.2 with
          is_free := upd.is_free
          is_available := upd.is_available
          is_demo_of := upd.is_demo_of
          has_metadata := upd.has_metadata
          app_name := if upd.app_name ≠ "" then upd.app_name else kv.2.app_name })
      else kv) = kv := if_neg hne
    rw [AppManager.update, ← this]
    exact List.mem_map_of_mem _ hkv
  · intro kv hkv heq
    have : (if kv.1 = pkg then
        (kv.1, { kv.2 with
          is_free := upd.is_free
          is_available := upd.is_available
          is_demo_of := upd.is_demo_of
          has_metadata := upd.has_metadata
          app_name := if upd.app_name ≠ "" then upd.app_name else kv.2.app_name })
      else kv) =
        (kv.1, (⟨if upd.app_name ≠ "" then upd.app_name else kv.2.app_name,
          upd.has_metadata, upd.is_available, upd.is_free, upd.is_demo_of,
          kv.2.id, kv.2.max_version, kv.2.max_version_date, kv.2.change_log,
          kv.2.rookie_releases⟩ : LocalApp)) := by
      rw [if_pos heq]
    rw [AppManager.update, ← this]
    exact List.mem_map_of_mem _ hkv

/-- Witness for C10 at a concrete two-entry catalog: updating a missing
package is the identity; updating `"pkg.a"` rewrites only its flags and
name while `"pkg.b"` keeps its entry and `"pkg.a"` keeps its id, versions,
changelog and rookie releases. -/
theorem manager_update_frame_witness :
    AppManager.update
        [("pkg.a", ⟨"A", false, false, false, false, some "idA", 3, 9,
          some [⟨"v1", 1, some "log"⟩], []⟩),
         ("pkg.b", ⟨"B", false, false, false, false, some "idB", 4, 8, none, []⟩)]
        "pkg.c" ⟨"N", true, true, true, true⟩ =
      [("pkg.a", ⟨"A", false, false, false, false, some "idA", 3, 9,
        some [⟨"v1", 1, some "log"⟩], []⟩),
       ("pkg.b", ⟨"B", false, false, false, false, some "idB", 4, 8, none, []⟩)] ∧
    ("pkg.b", (⟨"B", false, false, false, false, some "idB", 4, 8, none, []⟩ : LocalApp)) ∈
      AppManager.update
        [("pkg.a", ⟨"A", false, false, false, false, some "idA", 3, 9,
          some [⟨"v1", 1, some "log"⟩], []⟩),
         ("pkg.b", ⟨"B", false, false, false, false, some "idB", 4, 8, none, []⟩)]
        "pkg.a" ⟨"N", true, true, true, true⟩ ∧
    ("pkg.a", (⟨"N", true, true, true, true, some "idA", 3, 9,
      some [⟨"v1", 1, some "log"⟩], []⟩ : LocalApp)) ∈
      AppManager.update
        [("pkg.a", ⟨"A", false, false, false, false, some "idA", 3, 9,
          some [⟨"v1", 1, some "log"⟩], []⟩),
         ("pkg.b", ⟨"B", false, false, false, false, some "idB", 4, 8, none, []⟩)]
        "pkg.a" ⟨"N", true, true, true, true⟩ := by
  refine ⟨?_, ?_, ?_⟩
  · exact (manager_update_frame _ "pkg.c" _).1 (by decide)
  · exact (manager_update_frame _ "pkg.a" _).2.2.1 _ (by decide) (by decide)
  · have h := (manager_update_frame
        [("pkg.a", ⟨"A", false, false, false, false, some "idA", 3, 9,
          some [⟨"v1", 1, some "log"⟩], []⟩),
         ("pkg.b", ⟨"B", false, false, false, false, some "idB", 4, 8, none, []⟩)]
        "pkg.a" ⟨"N", true, true, true, true⟩).2.2.2
        ("pkg.a", ⟨"A", false, false, false, false, some "idA", 3, 9,
          some [⟨"v1", 1, some "log"⟩], []⟩) (by decide) rfl
    simpa using h

end QuestMetadata
